import Mathlib

/-!
Shallow embedding of the data-quality engine in `src/ref/Qplus_v3.py`
(pre-processing helper `get_req_col`, the `ReferenceResolver`, the rule
registries `VALIDITY_RULES` / `CONSISTENCY_RULES`, and the four phases of
`DataQualityEngine.run`), together with theorems settling the claims about
its specification.

Conventions of the embedding:
* a pandas cell is `Option Val` (`none` = NaN/null); a dataframe is an
  ordered association list of named columns plus its row count;
* Python `dict` insert-or-overwrite assignment is `dictSet` (an existing
  key keeps its position, a new key is appended), matching insertion order;
* Python exceptions (`KeyError`, `ValueError`, `TypeError`,
  `ZeroDivisionError`, `FileNotFoundError`) are the `DQError` inductive and
  fallible code returns `Except DQError`;
* a percentage (a Python float produced by `round(x, 2)`, hence an exact
  two-decimal value) is stored as an integer count of hundredths of a
  percent, an exact encoding (75.0 is 7500); `percVal` maps it back to the
  rational number of percent for the statements (ties round up; no claim
  below exercises a tie);
* a Python `set` of reference values is modelled by a deduplicated list,
  used only through membership.
-/

inductive Val where
  | vInt : Int → Val
  | vStr : String → Val
deriving DecidableEq, Repr

abbrev Cell := Option Val

/-- Python `str(x)`, as used by `.astype(str)` on reference columns. -/
def Val.toStr : Val → String
  | .vInt n => toString n
  | .vStr s => s

/-- A dataframe: row count plus ordered named columns of cells. -/
structure Dataset where
  nrows : Nat
  cols : List (String × List Cell)
deriving DecidableEq, Repr

/-- Well-formedness: every column holds exactly `nrows` cells
(automatic for a real pandas dataframe). -/
def Dataset.WF (df : Dataset) : Prop :=
  ∀ p ∈ df.cols, p.2.length = df.nrows

instance (df : Dataset) : Decidable df.WF :=
  inferInstanceAs (Decidable (∀ p ∈ df.cols, p.2.length = df.nrows))

/-- Python dict lookup (first binding of the key). -/
def dictGet {α : Type} (m : List (String × α)) (k : String) : Option α :=
  (m.find? (fun p => p.1 == k)).map Prod.snd

/-- Python dict assignment `m[k] = v`: an existing key keeps its position
and gets the new value, a new key is appended. -/
def dictSet {α : Type} (m : List (String × α)) (k : String) (v : α) :
    List (String × α) :=
  if m.any (fun p => p.1 == k) then
    m.map (fun p => if p.1 == k then (k, v) else p)
  else m ++ [(k, v)]

def Dataset.getCol (df : Dataset) (c : String) : Option (List Cell) :=
  dictGet df.cols c

def Dataset.hasCol (df : Dataset) (c : String) : Bool :=
  df.cols.any (fun p => p.1 == c)

/-- `round((num / den) * 100, 2)`, the percentage computation every phase
uses, in hundredths of a percent: the exact value
`⌊num * 10000 / den + 1/2⌋`, as one euclidean (floor) division — `den` is
positive at every call site. -/
def pctH (num den : Int) : Int := (num * 10000 * 2 + den) / (2 * den)

/-- `round(sum(scores) / len(scores), 2)` over two-decimal scores in
hundredths: the mean, rounded back to hundredths. -/
def roundMeanH (scores : List Int) : Int :=
  (2 * scores.sum + scores.length) / (2 * scores.length)

/-- `round(sum(scores) / len(scores), 2) if scores else 100.0`, the
dimension aggregate, in hundredths. -/
def meanH (scores : List Int) : Int :=
  if scores.isEmpty then 10000 else roundMeanH scores

/-- A percentage stored in hundredths, as the rational it denotes. -/
def percVal (h : Int) : ℚ := (h : ℚ) / 100

/-- Python `s.startswith(p)` on rule tags. -/
def strStartsWith (s p : String) : Bool :=
  p.toList.isPrefixOf s.toList

/-- Parameter payload of one rule entry (the `params` dict of the source,
typed by which keys the rules read). -/
inductive Params where
  | empty : Params
  | range : Int → Int → Params
  | threshold : Int → Params
  | compareTo : String → Params
  | values : List Val → Params
  | csvRef : String → String → Params
  | sqlRef : String → String → Params
deriving DecidableEq, Repr

/-- The `compare_to` key of a params dict, when present. -/
def paramsCompareTo : Params → Option String
  | .compareTo c => some c
  | _ => none

/-- One value of the `dim_map` dict: a list of column names, a list of
composite-key column lists, or a mapping from column to params. -/
inductive EntryConfig where
  | names : List String → EntryConfig
  | keys : List (List String) → EntryConfig
  | mapping : List (String × Params) → EntryConfig
deriving DecidableEq, Repr

/-- The full rule configuration, in insertion order. -/
abbrev DimMap := List (String × EntryConfig)

/-- The columns one `dim_map` entry adds to `required_cols`. -/
def reqColStep (acc : Finset String) (e : String × EntryConfig) : Finset String :=
  match e.2 with
  | .names cs => acc ∪ cs.toFinset
  | .keys ks => acc ∪ (ks.foldl (fun a cols => a ∪ cols.toFinset) ∅)
  | .mapping m =>
      acc ∪ (m.map Prod.fst).toFinset
          ∪ (m.filterMap (fun p => paramsCompareTo p.2)).toFinset

/-- `get_req_col` of the source: the set of columns a configuration needs. -/
def get_req_col (dim_map : DimMap) : Finset String :=
  dim_map.foldl reqColStep ∅

/-- Errors the engine can raise, mirroring the Python exception kinds. -/
inductive DQError where
  | keyError : String → DQError
  | valueError : String → DQError
  | typeError : String → DQError
  | zeroDivision : DQError
  | fileNotFound : String → DQError
deriving DecidableEq, Repr

/-- External world seen by the `ReferenceResolver`: readable CSV files
(path to table of named columns) and the optional SQL provider
(`db_config`; `none` models both a missing config and a connection that
never comes up, the two cases the source collapses to an empty set). -/
structure Env where
  files : List (String × List (String × List Cell))
  dbProvider : Option (String → String → Option (List String))

/-- Keys of `VALIDITY_RULES`. -/
def validityRuleTags : List String :=
  ["vali_val_pos", "vali_val_neg", "vali_val_rang", "vali_high_val",
   "vali_low_val", "vali_high_col", "vali_low_col", "vali_list_str"]

/-- Keys of `CONSISTENCY_RULES` (also the rule kinds `resolve` accepts). -/
def consistencyRuleTags : List String :=
  ["cons_list_str", "cons_uplo_csv", "cons_conn_sql"]

/-- Dimension keys the engine reads directly from `dim_map`. -/
def specialTags : List String := ["completeness", "uniq_sing", "uniq_mult"]

def recognizedTags : List String :=
  specialTags ++ validityRuleTags ++ consistencyRuleTags

/-- `ReferenceResolver.resolve`.  The per-run memo cache only re-serves a
previously computed value and is semantically transparent in this pure
setting, so it is not threaded.  `cons_uplo_csv` reads the file with no
exception handler: a missing path propagates `FileNotFoundError`.
`cons_conn_sql` degrades to an empty set when no provider is configured or
the connection fails (after the source's retries, which only repeat the
same deterministic outcome here). -/
def resolve (env : Env) (rule_type : String) (params : Params) :
    Except DQError (List Val) :=
  if rule_type == "cons_list_str" then
    match params with
    | .values vs => .ok vs.dedup
    | _ => .error (.keyError "values")
  else if rule_type == "cons_uplo_csv" then
    match params with
    | .csvRef csv_path ref_col =>
        match dictGet env.files csv_path with
        | none => .error (.fileNotFound csv_path)
        | some tbl =>
            match dictGet tbl ref_col with
            | none => .error (.keyError ref_col)
            | some cells =>
                .ok (((cells.filterMap id).map (fun v => Val.vStr v.toStr)).dedup)
    | _ => .error (.keyError "csv_path")
  else if rule_type == "cons_conn_sql" then
    match params with
    | .sqlRef table ref_col =>
        match env.dbProvider with
        | none => .ok []
        | some provider =>
            match provider table ref_col with
            | none => .ok []
            | some vs => .ok ((vs.map Val.vStr).dedup)
    | _ => .error (.keyError "table")
  else .error (.valueError rule_type)

/-- Completeness report entry (`null_count`, `rows_evaluated`, `col_perc`). -/
structure CompletenessEntry where
  null_count : Nat
  rows_evaluated : Nat
  col_perc : Int
deriving DecidableEq, Repr

structure CompletenessReport where
  columns : List (String × CompletenessEntry)
  dim_perc : Int
deriving DecidableEq, Repr

/-- Single-key uniqueness report entry. -/
structure UniqSingEntry where
  duplicate_count : Nat
  rows_evaluated : Nat
  col_perc : Int
deriving DecidableEq, Repr

/-- Composite-key uniqueness report entry. -/
structure UniqMultEntry where
  columns_used : List String
  duplicate_count : Nat
  rows_evaluated : Nat
  col_perc : Int
deriving DecidableEq, Repr

structure UniquenessReport where
  uniq_sing : List (String × UniqSingEntry)
  uniq_mult : List (String × UniqMultEntry)
  dim_perc : Int
deriving DecidableEq, Repr

/-- Validity / consistency report entry. -/
structure RuleEntry where
  rule : String
  invalid_count : Int
  rows_evaluated : Nat
  col_perc : Int
  rule_params : Params
deriving DecidableEq, Repr

structure RuleDimReport where
  columns : List (String × RuleEntry)
  dim_perc : Int
deriving DecidableEq, Repr

structure Report where
  generated_at : String
  total_rows : Nat
  completeness : CompletenessReport
  uniqueness : UniquenessReport
  validity : RuleDimReport
  consistency : RuleDimReport
deriving DecidableEq, Repr

/-- Flag columns accumulated in `self.row_flags` (1 = pass, 0 = fail). -/
abbrev FlagCols := List (String × List Nat)

structure RunResult where
  enriched : Dataset
  report : Report
deriving DecidableEq, Repr

/-- `df.duplicated(subset=key, keep=False)`: mark every row whose key
occurs more than once (pandas treats NaN keys as equal to each other). -/
def duplicatedKeepFalse {α : Type} [DecidableEq α] (ks : List α) : List Bool :=
  ks.map (fun k => decide (2 ≤ ks.count k))

/-- `df.duplicated(subset=key)` (keep the first occurrence): mark a row
when its key already occurred among `seen ++ earlier rows`. -/
def duplicatedFirstMask {α : Type} [DecidableEq α] :
    List α → List α → List Bool
  | _, [] => []
  | seen, k :: rest => decide (k ∈ seen) :: duplicatedFirstMask (k :: seen) rest

/-- Columns the completeness phase iterates: the configured list, or the
keys of a dict config (Python iteration over a dict yields its keys). -/
def completenessColsOf : Option EntryConfig → List String
  | some (.names cs) => cs
  | some (.mapping m) => m.map Prod.fst
  | _ => []

/-- The per-column body of `_check_completeness`: `self.df[col]` raises on
a missing column, `non_nulls / self.total_rows` raises on an empty frame. -/
def completenessCols (df : Dataset) :
    List String → FlagCols → List (String × CompletenessEntry) → List Int →
    Except DQError (FlagCols × List (String × CompletenessEntry) × List Int)
  | [], fl, res, sc => .ok (fl, res, sc)
  | c :: rest, fl, res, sc =>
      match df.getCol c with
      | none => .error (.keyError c)
      | some cells =>
          let null_count := cells.countP (fun x => x.isNone)
          let flags := cells.map (fun x => if x.isSome then 1 else 0)
          if df.nrows = 0 then .error .zeroDivision
          else
            let col_perc := pctH ((df.nrows : Int) - null_count) (df.nrows : Int)
            completenessCols df rest
              (dictSet fl ("completeness." ++ c) flags)
              (dictSet res c ⟨null_count, df.nrows, col_perc⟩)
              (sc ++ [col_perc])

def check_completeness (df : Dataset) (dm : DimMap) (fl : FlagCols) :
    Except DQError (FlagCols × CompletenessReport) :=
  match completenessColsOf (dictGet dm "completeness") with
  | [] => .ok (fl, ⟨[], 10000⟩)
  | c :: rest =>
      match completenessCols df (c :: rest) fl [] [] with
      | .error e => .error e
      | .ok (fl2, res, sc) => .ok (fl2, ⟨res, roundMeanH sc⟩)

/-- One single-key uniqueness column: `none` when the column is absent
(the phase skips it). -/
def uniqSingCol (df : Dataset) (c : String) :
    Option (List Nat × UniqSingEntry) :=
  match df.getCol c with
  | none => none
  | some cells =>
      let evalVals := cells.filterMap id
      let rows_evaluated := evalVals.length
      let flags := (duplicatedKeepFalse cells).map (fun b => if b then 0 else 1)
      if rows_evaluated = 0 then some (flags, ⟨0, 0, 10000⟩)
      else
        let dup_count := (duplicatedFirstMask [] evalVals).count true
        some (flags, ⟨dup_count, rows_evaluated,
          pctH ((rows_evaluated : Int) - dup_count) (rows_evaluated : Int)⟩)

/-- The per-row composite keys of the named columns: the tuple of the
columns' cells, row by row. -/
def multKeysOf (df : Dataset) (cs : List String) : List (List Cell) :=
  (List.range df.nrows).map
    (fun i => (cs.map (fun c => (df.getCol c).getD [])).map
      (fun l => l.getD i none))

/-- One composite-key uniqueness entry: key per row is the tuple of cells
of the named columns; `dropna(subset=cols)` keeps rows with no null among
them. -/
def uniqMultKey (df : Dataset) (cs : List String) :
    Option (String × List Nat × UniqMultEntry) :=
  if cs.all df.hasCol then
    let key_name := String.intercalate "." cs
    let keys := multKeysOf df cs
    let flags := (duplicatedKeepFalse keys).map (fun b => if b then 0 else 1)
    let evalKeys := keys.filter (fun k => k.all Option.isSome)
    let rows_evaluated := evalKeys.length
    if rows_evaluated = 0 then some (key_name, flags, ⟨cs, 0, 0, 10000⟩)
    else
      let dup_count := (duplicatedFirstMask [] evalKeys).count true
      some (key_name, flags, ⟨cs, dup_count, rows_evaluated,
        pctH ((rows_evaluated : Int) - dup_count) (rows_evaluated : Int)⟩)
  else none

def uniqSingCols (df : Dataset) :
    List String → FlagCols → List (String × UniqSingEntry) → List Int →
    FlagCols × List (String × UniqSingEntry) × List Int
  | [], fl, res, sc => (fl, res, sc)
  | c :: rest, fl, res, sc =>
      match uniqSingCol df c with
      | none => uniqSingCols df rest fl res sc
      | some (flags, e) =>
          uniqSingCols df rest (dictSet fl ("uniq_sing." ++ c) flags)
            (dictSet res c e) (sc ++ [e.col_perc])

def uniqMultKeys (df : Dataset) :
    List (List String) → FlagCols → List (String × UniqMultEntry) → List Int →
    FlagCols × List (String × UniqMultEntry) × List Int
  | [], fl, res, sc => (fl, res, sc)
  | cs :: rest, fl, res, sc =>
      match uniqMultKey df cs with
      | none => uniqMultKeys df rest fl res sc
      | some (kn, flags, e) =>
          uniqMultKeys df rest (dictSet fl ("uniq_mult." ++ kn) flags)
            (dictSet res kn e) (sc ++ [e.col_perc])

/-- Columns of the `uniq_sing` config (dict config iterates its keys; a
composite list fails the column-membership test and is skipped). -/
def singColsOf : Option EntryConfig → List String
  | some (.names cs) => cs
  | some (.mapping m) => m.map Prod.fst
  | _ => []

def multColsOf : Option EntryConfig → List (List String)
  | some (.keys ks) => ks
  | _ => []

def check_uniqueness (df : Dataset) (dm : DimMap) (fl : FlagCols) :
    FlagCols × UniquenessReport :=
  let s := uniqSingCols df (singColsOf (dictGet dm "uniq_sing")) fl [] []
  let m := uniqMultKeys df (multColsOf (dictGet dm "uniq_mult")) s.1 [] s.2.2
  (m.1, ⟨s.2.1, m.2.1, meanH m.2.2⟩)

/-- Comparisons the `VALIDITY_RULES` lambdas perform on one cell.  Unlike
kinds (and a null `compare_to` cell) compare as `false`, matching the
elementwise `False` pandas produces for NaN comparisons; the source only
compares like-typed columns. -/
def valGtInt : Val → Int → Bool
  | .vInt a, b => decide (b < a)
  | _, _ => false

def valLtInt : Val → Int → Bool
  | .vInt a, b => decide (a < b)
  | _, _ => false

def valGeInt : Val → Int → Bool
  | .vInt a, b => decide (b ≤ a)
  | _, _ => false

def valLeInt : Val → Int → Bool
  | .vInt a, b => decide (a ≤ b)
  | _, _ => false

def valGtVal : Val → Val → Bool
  | .vInt a, .vInt b => decide (b < a)
  | .vStr a, .vStr b => decide (b < a)
  | _, _ => false

def valLtVal : Val → Val → Bool
  | .vInt a, .vInt b => decide (a < b)
  | .vStr a, .vStr b => decide (a < b)
  | _, _ => false

/-- The merged full-row mask of a rule, built from row index `i` on: null
rows pass vacuously (`full_mask` starts all-`True`), non-null rows get the
predicate, which may read the row index (for `compare_to` alignment). -/
def maskOfFrom (g : Nat → Val → Bool) : Nat → List Cell → List Bool
  | _, [] => []
  | i, none :: rest => true :: maskOfFrom g (i + 1) rest
  | i, some v :: rest => g i v :: maskOfFrom g (i + 1) rest

def maskOf (g : Nat → Val → Bool) (cells : List Cell) : List Bool :=
  maskOfFrom g 0 cells

/-- `int(valid_mask.sum())`: passing rows among the evaluated (non-null)
population. -/
def validCountOf (cells : List Cell) (mask : List Bool) : Nat :=
  ((cells.zip mask).filter (fun pc => pc.1.isSome)).countP (fun pc => pc.2)

/-- `VALIDITY_RULES[rule_type]` applied over the non-null rows of `cells`
(returned as the merged full-row mask).  An unknown tag is the dict lookup
`KeyError`; a params dict without the key the lambda reads also raises
`KeyError`. -/
def applyValidityRule (df : Dataset) (rule_type : String) (params : Params)
    (cells : List Cell) : Except DQError (List Bool) :=
  if rule_type == "vali_val_pos" then
    .ok (maskOf (fun _ v => valGtInt v 0) cells)
  else if rule_type == "vali_val_neg" then
    .ok (maskOf (fun _ v => valLtInt v 0) cells)
  else if rule_type == "vali_val_rang" then
    match params with
    | .range lo hi =>
        .ok (maskOf (fun _ v => valGeInt v lo && valLeInt v hi) cells)
    | _ => .error (.keyError "min")
  else if rule_type == "vali_high_val" then
    match params with
    | .threshold t => .ok (maskOf (fun _ v => valGtInt v t) cells)
    | _ => .error (.keyError "threshold")
  else if rule_type == "vali_low_val" then
    match params with
    | .threshold t => .ok (maskOf (fun _ v => valLtInt v t) cells)
    | _ => .error (.keyError "threshold")
  else if rule_type == "vali_high_col" then
    match params with
    | .compareTo cc =>
        match df.getCol cc with
        | none => .error (.keyError cc)
        | some comp =>
            .ok (maskOf (fun i v =>
              match comp.getD i none with
              | none => false
              | some w => valGtVal v w) cells)
    | _ => .error (.keyError "compare_to")
  else if rule_type == "vali_low_col" then
    match params with
    | .compareTo cc =>
        match df.getCol cc with
        | none => .error (.keyError cc)
        | some comp =>
            .ok (maskOf (fun i v =>
              match comp.getD i none with
              | none => false
              | some w => valLtVal v w) cells)
    | _ => .error (.keyError "compare_to")
  else if rule_type == "vali_list_str" then
    match params with
    | .values vs => .ok (maskOf (fun _ v => decide (v ∈ vs)) cells)
    | _ => .error (.keyError "values")
  else .error (.keyError rule_type)

/-- One validity rule applied to one column; `ok none` when the column is
absent (the phase skips it before touching the registry). -/
def evalValidityCol (df : Dataset) (rule_type : String) (c : String)
    (params : Params) : Except DQError (Option (List Nat × RuleEntry)) :=
  match df.getCol c with
  | none => .ok none
  | some cells =>
      let rows_evaluated := cells.countP (fun x => x.isSome)
      if rows_evaluated = 0 then
        .ok (some (cells.map (fun _ => 1), ⟨rule_type, 0, 0, 10000, params⟩))
      else
        match applyValidityRule df rule_type params cells with
        | .error e => .error e
        | .ok mask =>
            let valid_count := validCountOf cells mask
            .ok (some (mask.map (fun b => if b then 1 else 0),
              ⟨rule_type, (rows_evaluated : Int) - valid_count, rows_evaluated,
               pctH (valid_count : Int) (rows_evaluated : Int), params⟩))

/-- Column/params pairs a validity entry iterates: dict items, or a
defaulted empty-params pair per listed name; composite-key lists fail the
column-membership test and contribute nothing. -/
def validityPairs : EntryConfig → List (String × Params)
  | .mapping m => m
  | .names cs => cs.map (fun c => (c, Params.empty))
  | .keys _ => []

def validityCols (df : Dataset) (rule_type : String) :
    List (String × Params) → FlagCols → List (String × RuleEntry) → List Int →
    Except DQError (FlagCols × List (String × RuleEntry) × List Int)
  | [], fl, res, sc => .ok (fl, res, sc)
  | (c, p) :: rest, fl, res, sc =>
      match evalValidityCol df rule_type c p with
      | .error e => .error e
      | .ok none => validityCols df rule_type rest fl res sc
      | .ok (some (flags, e)) =>
          validityCols df rule_type rest
            (dictSet fl (rule_type ++ "." ++ c) flags)
            (dictSet res c e) (sc ++ [e.col_perc])

def validityEntries (df : Dataset) :
    DimMap → FlagCols → List (String × RuleEntry) → List Int →
    Except DQError (FlagCols × List (String × RuleEntry) × List Int)
  | [], fl, res, sc => .ok (fl, res, sc)
  | (rt, cfg) :: rest, fl, res, sc =>
      if strStartsWith rt "vali_" then
        match validityCols df rt (validityPairs cfg) fl res sc with
        | .error e => .error e
        | .ok (fl2, res2, sc2) => validityEntries df rest fl2 res2 sc2
      else validityEntries df rest fl res sc

def check_validity (df : Dataset) (dm : DimMap) (fl : FlagCols) :
    Except DQError (FlagCols × RuleDimReport) :=
  match validityEntries df dm fl [] [] with
  | .error e => .error e
  | .ok (fl2, res, sc) => .ok (fl2, ⟨res, meanH sc⟩)

/-- One consistency rule applied to one column.  On non-null rows the
resolved reference set is consulted with the stringified value; `resolve`
is only reached when at least one row is evaluated. -/
def evalConsistencyCol (env : Env) (df : Dataset) (rule_type : String)
    (c : String) (params : Params) :
    Except DQError (Option (List Nat × RuleEntry)) :=
  match df.getCol c with
  | none => .ok none
  | some cells =>
      let rows_evaluated := cells.countP (fun x => x.isSome)
      if rows_evaluated = 0 then
        .ok (some (cells.map (fun _ => 1), ⟨rule_type, 0, 0, 10000, params⟩))
      else
        match resolve env rule_type params with
        | .error e => .error e
        | .ok ref =>
            let mask := maskOf (fun _ v => decide (Val.vStr v.toStr ∈ ref)) cells
            let valid_count := validCountOf cells mask
            .ok (some (mask.map (fun b => if b then 1 else 0),
              ⟨rule_type, (rows_evaluated : Int) - valid_count, rows_evaluated,
               pctH (valid_count : Int) (rows_evaluated : Int), params⟩))

def consistencyCols (env : Env) (df : Dataset) (rule_type : String) :
    List (String × Params) → FlagCols → List (String × RuleEntry) → List Int →
    Except DQError (FlagCols × List (String × RuleEntry) × List Int)
  | [], fl, res, sc => .ok (fl, res, sc)
  | (c, p) :: rest, fl, res, sc =>
      match evalConsistencyCol env df rule_type c p with
      | .error e => .error e
      | .ok none => consistencyCols env df rule_type rest fl res sc
      | .ok (some (flags, e)) =>
          consistencyCols env df rule_type rest
            (dictSet fl (rule_type ++ "." ++ c) flags)
            (dictSet res c e) (sc ++ [e.col_perc])

/-- The consistency phase calls `columns.items()` directly, so a non-empty
list config under a `cons_` tag raises (`AttributeError`, modelled as
`typeError`); an empty one is skipped by the falsiness test first. -/
def consPairsOf (rt : String) : EntryConfig → Except DQError (List (String × Params))
  | .mapping m => .ok m
  | .names [] => .ok []
  | .keys [] => .ok []
  | .names (_ :: _) => .error (.typeError rt)
  | .keys (_ :: _) => .error (.typeError rt)

def consistencyEntries (env : Env) (df : Dataset) :
    DimMap → FlagCols → List (String × RuleEntry) → List Int →
    Except DQError (FlagCols × List (String × RuleEntry) × List Int)
  | [], fl, res, sc => .ok (fl, res, sc)
  | (rt, cfg) :: rest, fl, res, sc =>
      if strStartsWith rt "cons_" then
        match consPairsOf rt cfg with
        | .error e => .error e
        | .ok m =>
            match consistencyCols env df rt m fl res sc with
            | .error e => .error e
            | .ok (fl2, res2, sc2) => consistencyEntries env df rest fl2 res2 sc2
      else consistencyEntries env df rest fl res sc

def check_consistency (env : Env) (df : Dataset) (dm : DimMap)
    (fl : FlagCols) : Except DQError (FlagCols × RuleDimReport) :=
  match consistencyEntries env df dm fl [] [] with
  | .error e => .error e
  | .ok (fl2, res, sc) => .ok (fl2, ⟨res, meanH sc⟩)

/-- The four phases in the fixed order of `run`, threading the shared
`row_flags` container, before the timestamped report is assembled. -/
def runCore (env : Env) (df : Dataset) (dm : DimMap) :
    Except DQError
      (FlagCols × CompletenessReport × UniquenessReport ×
        RuleDimReport × RuleDimReport) :=
  match check_completeness df dm [] with
  | .error e => .error e
  | .ok (f1, comp) =>
      let u := check_uniqueness df dm f1
      match check_validity df dm u.1 with
      | .error e => .error e
      | .ok (f3, vali) =>
          match check_consistency env df dm f3 with
          | .error e => .error e
          | .ok (f4, cons) => .ok (f4, comp, u.2, vali, cons)

/-- Flag columns as int8 dataframe columns, for the concat. -/
def flagColsToCells (fl : FlagCols) : List (String × List Cell) :=
  fl.map (fun p => (p.1, p.2.map (fun n => some (Val.vInt n))))

/-- `DataQualityEngine(df, dim_map).run()`: the enriched frame is
`pd.concat([self.df, self.row_flags], axis=1)` and the report carries the
construction-time timestamp `now`. -/
def run (env : Env) (df : Dataset) (dm : DimMap) (now : String) :
    Except DQError RunResult :=
  (runCore env df dm).map (fun x =>
    ⟨⟨df.nrows, df.cols ++ flagColsToCells x.1⟩,
     ⟨now, df.nrows, x.2.1, x.2.2.1, x.2.2.2.1, x.2.2.2.2⟩⟩)

/-- Erase the only timestamp-dependent field. -/
def stripTime (r : RunResult) : RunResult :=
  ⟨r.enriched,
   ⟨"", r.report.total_rows, r.report.completeness, r.report.uniqueness,
    r.report.validity, r.report.consistency⟩⟩

deriving instance DecidableEq for Except

/-- Empty external world: no readable files, no database configured. -/
def env0 : Env := ⟨[], none⟩

/-- Four rows holding 1, 1, 2, 3 in column `c` (the §8 uniqueness vector). -/
def df1 : Dataset :=
  ⟨4, [("c", [some (.vInt 1), some (.vInt 1), some (.vInt 2), some (.vInt 3)])]⟩

def dm1 : DimMap := [("uniq_sing", .names ["c"])]

/-- Values 0, 500, 1001, null in column `v` (the §8 validity vector). -/
def df2 : Dataset :=
  ⟨4, [("v", [some (.vInt 0), some (.vInt 500), some (.vInt 1001), none])]⟩

def dm2 : DimMap := [("vali_val_rang", .mapping [("v", .range 1 1000)])]

/-- One row, one column, used by the error-policy claims. -/
def df3 : Dataset := ⟨1, [("a", [some (.vInt 5)])]⟩

def dm4 : DimMap := [("cons_uplo_csv", .mapping [("a", .csvRef "ref.csv" "r")])]

def dm4b : DimMap := [("cons_conn_sql", .mapping [("a", .sqlRef "t" "r")])]

/-- Spec-side description of the columns one configuration entry mentions:
the names of a list-valued entry, the names inside each composite-key
list, the keys of a mapping-valued entry and any `compare_to` value. -/
def SpecMentions : EntryConfig → String → Prop
  | .names cs, x => x ∈ cs
  | .keys ks, x => ∃ k ∈ ks, x ∈ k
  | .mapping m, x => (∃ p ∈ m, p.1 = x) ∨ ∃ p ∈ m, paramsCompareTo p.2 = some x

/-- A percentage lies in the closed interval [0, 100]. -/
def inPerc (q : ℚ) : Prop := 0 ≤ q ∧ q ≤ 100

/-- Every column-level and dimension-level percentage of a report lies in
[0, 100]. -/
def ReportInRange (r : Report) : Prop :=
  (∀ p ∈ r.completeness.columns, inPerc (percVal p.2.col_perc)) ∧
  inPerc (percVal r.completeness.dim_perc) ∧
  (∀ p ∈ r.uniqueness.uniq_sing, inPerc (percVal p.2.col_perc)) ∧
  (∀ p ∈ r.uniqueness.uniq_mult, inPerc (percVal p.2.col_perc)) ∧
  inPerc (percVal r.uniqueness.dim_perc) ∧
  (∀ p ∈ r.validity.columns, inPerc (percVal p.2.col_perc)) ∧
  inPerc (percVal r.validity.dim_perc) ∧
  (∀ p ∈ r.consistency.columns, inPerc (percVal p.2.col_perc)) ∧
  inPerc (percVal r.consistency.dim_perc)

/-- A hundredths-encoded percentage within [0, 10000] (integer form of
`inPerc`). -/
def hIn (h : Int) : Prop := 0 ≤ h ∧ h ≤ 10000

/-- Two rows, one positive and one negative, for the duplicate-rule
configuration below. -/
def df10 : Dataset := ⟨2, [("x", [some (.vInt 3), some (.vInt (-4))])]⟩

/-- Two distinct validity rules targeting the same column `x`. -/
def dm10 : DimMap :=
  [("vali_val_pos", .mapping [("x", .empty)]),
   ("vali_val_neg", .mapping [("x", .empty)])]

/-- A small dataset exercising all four dimensions. -/
def df5 : Dataset :=
  ⟨3, [("a", [some (.vInt 1), none, some (.vInt 1)]),
       ("b", [some (.vStr "PM"), some (.vStr "XX"), none])]⟩

def dm5 : DimMap :=
  [("completeness", .names ["a", "b"]),
   ("uniq_sing", .names ["a"]),
   ("uniq_mult", .keys [["a", "b"]]),
   ("vali_val_pos", .names ["a"]),
   ("cons_list_str", .mapping [("b", .values [.vStr "PM", .vStr "SK"])])]

/-- Two entries whose order is swapped in `dmW'`. -/
def dmW : DimMap :=
  [("uniq_sing", .names ["a"]), ("vali_high_col", .mapping [("b", .compareTo "z")])]

def dmW' : DimMap :=
  [("vali_high_col", .mapping [("b", .compareTo "z")]), ("uniq_sing", .names ["a"])]

/-- A configuration carrying an unknown tag with the `vali_` prefix. -/
def dm3v : DimMap := [("vali_bogus", .mapping [("a", .empty)])]

/-- A configuration carrying an unknown tag with the `cons_` prefix. -/
def dm3c : DimMap := [("cons_bogus", .mapping [("a", .empty)])]

/-- One row whose only column holds a null, for the all-null cases. -/
def dfN : Dataset := ⟨1, [("a", [none])]⟩

/-- The report of the all-dimensions example run (junk shell when the run
errors, which the witness below refutes). -/
def report5 : Report :=
  match run env0 df5 dm5 "T" with
  | .ok r => r.report
  | .error _ => ⟨"", 0, ⟨[], 0⟩, ⟨[], [], 0⟩, ⟨[], 0⟩, ⟨[], 0⟩⟩

/-- The enriched dataset of the uniqueness example run. -/
def enriched1 : Dataset :=
  match run env0 df1 dm1 "T" with
  | .ok r => r.enriched
  | .error _ => ⟨0, []⟩

theorem mem_dictSet {α : Type} {P : α → Prop} {m : List (String × α)}
    {k : String} {v : α} (hm : ∀ p ∈ m, P p.2) (hv : P v) :
    ∀ p ∈ dictSet m k v, P p.2 := by
  intro p hp
  unfold dictSet at hp
  split at hp
  · obtain ⟨q, hq, he⟩ := List.mem_map.mp hp
    by_cases hqk : q.1 == k
    · rw [if_pos hqk] at he; rw [← he]; exact hv
    · rw [if_neg hqk] at he; rw [← he]; exact hm q hq
  · rcases List.mem_append.mp hp with h | h
    · exact hm p h
    · rw [List.mem_singleton.mp h]; exact hv

theorem getCol_length {df : Dataset} (hwf : df.WF) {c : String}
    {cells : List Cell} (h : df.getCol c = some cells) :
    cells.length = df.nrows := by
  unfold Dataset.getCol dictGet at h
  cases hf : df.cols.find? (fun p => p.1 == c) with
  | none => rw [hf] at h; exact absurd h (by simp)
  | some p =>
      rw [hf] at h
      simp only [Option.map_some'] at h
      cases h
      exact hwf p (List.mem_of_find?_eq_some hf)

theorem maskOfFrom_length (g : Nat → Val → Bool) :
    ∀ (i : Nat) (cells : List Cell), (maskOfFrom g i cells).length = cells.length := by
  intro i cells
  induction cells generalizing i with
  | nil => rfl
  | cons x rest ih => cases x <;> simp [maskOfFrom, ih]

theorem maskOfFrom_getElem?_none (g : Nat → Val → Bool) :
    ∀ (i j : Nat) (cells : List Cell), cells[j]? = some none →
      (maskOfFrom g i cells)[j]? = some true := by
  intro i j cells
  induction cells generalizing i j with
  | nil => intro h; exact absurd h (by simp)
  | cons x rest ih =>
      intro h
      cases j with
      | zero =>
          simp only [List.getElem?_cons_zero, Option.some.injEq] at h
          rw [h]
          simp [maskOfFrom]
      | succ j =>
          simp only [List.getElem?_cons_succ] at h
          cases x <;> simpa [maskOfFrom] using ih (i + 1) j h

theorem applyValidityRule_shape {df : Dataset} {rt : String} {p : Params}
    {cells : List Cell} {mask : List Bool}
    (h : applyValidityRule df rt p cells = .ok mask) :
    ∃ g, mask = maskOf g cells := by
  unfold applyValidityRule at h
  repeat' split at h
  all_goals first
    | (injection h with h2; exact ⟨_, h2.symm⟩)
    | (cases h)

theorem validCountOf_le :
    ∀ (cells : List Cell) (mask : List Bool),
      validCountOf cells mask ≤ cells.countP (fun x => x.isSome) := by
  intro cells
  induction cells with
  | nil => intro mask; simp [validCountOf]
  | cons x rest ih =>
      intro mask
      cases mask with
      | nil => simp [validCountOf]
      | cons b bs =>
          cases x with
          | none =>
              simpa [validCountOf, List.zip_cons_cons, List.filter_cons,
                     List.countP_cons] using ih bs
          | some v =>
              have := ih bs
              simp only [validCountOf, List.zip_cons_cons, List.filter_cons,
                         Option.isSome_some, if_true, List.countP_cons] at this ⊢
              split <;> omega

theorem duplicatedFirstMask_length {α : Type} [DecidableEq α] :
    ∀ (seen l : List α), (duplicatedFirstMask seen l).length = l.length := by
  intro seen l
  induction l generalizing seen with
  | nil => rfl
  | cons x rest ih => simp [duplicatedFirstMask, ih]

theorem pctH_bounds {num den : Int} (h0 : 0 ≤ num) (hle : num ≤ den)
    (hd : 0 < den) : hIn (pctH num den) := by
  constructor
  · exact Int.ediv_nonneg (by nlinarith) (by omega)
  · have : pctH num den < 10001 := by
      rw [pctH, Int.ediv_lt_iff_lt_mul (by omega)]
      nlinarith
    omega

theorem roundMeanH_bounds {scores : List Int} (hne : scores ≠ [])
    (hb : ∀ q ∈ scores, hIn q) : hIn (roundMeanH scores) := by
  have hlen : 0 < (scores.length : Int) := by
    have := List.length_pos.mpr hne
    exact_mod_cast this
  have hsum0 : 0 ≤ scores.sum := List.sum_nonneg (fun x hx => (hb x hx).1)
  have hsum1 : scores.sum ≤ 10000 * scores.length := by
    have := List.sum_le_card_nsmul scores 10000 (fun x hx => (hb x hx).2)
    simpa [nsmul_eq_mul, mul_comm] using this
  constructor
  · exact Int.ediv_nonneg (by omega) (by omega)
  · have : roundMeanH scores < 10001 := by
      rw [roundMeanH, Int.ediv_lt_iff_lt_mul (by omega)]
      nlinarith
    omega

theorem meanH_bounds {scores : List Int} (hb : ∀ q ∈ scores, hIn q) :
    hIn (meanH scores) := by
  unfold meanH
  split
  next h => exact ⟨by norm_num, by norm_num⟩
  next h => exact roundMeanH_bounds (fun hnil => h (by simp [hnil])) hb

theorem inPerc_percVal {h : Int} (hh : hIn h) : inPerc (percVal h) := by
  obtain ⟨h0, h1⟩ := hh
  constructor
  · exact div_nonneg (by exact_mod_cast h0) (by norm_num)
  · rw [percVal, div_le_iff₀ (by norm_num)]
    have : (h : ℚ) ≤ 10000 := by exact_mod_cast h1
    linarith

theorem evalValidityCol_perc {df : Dataset} {rt c : String} {p : Params}
    {fl : List Nat} {e : RuleEntry}
    (h : evalValidityCol df rt c p = .ok (some (fl, e))) : hIn e.col_perc := by
  unfold evalValidityCol at h
  cases hcol : df.getCol c with
  | none => rw [hcol] at h; exact absurd h (by simp)
  | some cells =>
      rw [hcol] at h
      simp only [] at h
      by_cases h0 : cells.countP (fun x => x.isSome) = 0
      · rw [if_pos h0] at h
        simp only [Except.ok.injEq, Option.some.injEq, Prod.mk.injEq] at h
        rw [← h.2]
        exact ⟨by norm_num, by norm_num⟩
      · rw [if_neg h0] at h
        cases happ : applyValidityRule df rt p cells with
        | error e2 => rw [happ] at h; exact absurd h (by simp)
        | ok mask =>
            rw [happ] at h
            simp only [Except.ok.injEq, Option.some.injEq, Prod.mk.injEq] at h
            rw [← h.2]
            refine pctH_bounds (Int.ofNat_nonneg _) ?_ ?_
            · exact_mod_cast validCountOf_le _ mask
            · exact_mod_cast Nat.pos_of_ne_zero h0

theorem evalConsistencyCol_perc {env : Env} {df : Dataset} {rt c : String}
    {p : Params} {fl : List Nat} {e : RuleEntry}
    (h : evalConsistencyCol env df rt c p = .ok (some (fl, e))) :
    hIn e.col_perc := by
  unfold evalConsistencyCol at h
  cases hcol : df.getCol c with
  | none => rw [hcol] at h; exact absurd h (by simp)
  | some cells =>
      rw [hcol] at h
      simp only [] at h
      by_cases h0 : cells.countP (fun x => x.isSome) = 0
      · rw [if_pos h0] at h
        simp only [Except.ok.injEq, Option.some.injEq, Prod.mk.injEq] at h
        rw [← h.2]
        exact ⟨by norm_num, by norm_num⟩
      · rw [if_neg h0] at h
        cases hres : resolve env rt p with
        | error e2 => rw [hres] at h; exact absurd h (by simp)
        | ok ref =>
            rw [hres] at h
            simp only [Except.ok.injEq, Option.some.injEq, Prod.mk.injEq] at h
            rw [← h.2]
            refine pctH_bounds (Int.ofNat_nonneg _) ?_ ?_
            · exact_mod_cast validCountOf_le _ _
            · exact_mod_cast Nat.pos_of_ne_zero h0

theorem uniqSingCol_perc {df : Dataset} {c : String} {fl : List Nat}
    {e : UniqSingEntry} (h : uniqSingCol df c = some (fl, e)) :
    hIn e.col_perc := by
  unfold uniqSingCol at h
  cases hcol : df.getCol c with
  | none => rw [hcol] at h; exact absurd h (by simp)
  | some cells =>
      rw [hcol] at h
      simp only [] at h
      by_cases h0 : (cells.filterMap id).length = 0
      · rw [if_pos h0] at h
        simp only [Option.some.injEq, Prod.mk.injEq] at h
        rw [← h.2]
        exact ⟨by norm_num, by norm_num⟩
      · rw [if_neg h0] at h
        simp only [Option.some.injEq, Prod.mk.injEq] at h
        rw [← h.2]
        have hdup : (duplicatedFirstMask [] (cells.filterMap id)).count true ≤
            (cells.filterMap id).length := by
          calc (duplicatedFirstMask [] (cells.filterMap id)).count true
              ≤ (duplicatedFirstMask [] (cells.filterMap id)).length :=
                List.count_le_length _ _
            _ = (cells.filterMap id).length := duplicatedFirstMask_length _ _
        refine pctH_bounds ?_ ?_ ?_
        · omega
        · omega
        · exact_mod_cast Nat.pos_of_ne_zero h0

theorem uniqMultKey_perc {df : Dataset} {cs : List String} {kn : String}
    {fl : List Nat} {e : UniqMultEntry}
    (h : uniqMultKey df cs = some (kn, fl, e)) : hIn e.col_perc := by
  unfold uniqMultKey at h
  split at h
  · simp only [] at h
    by_cases h0 :
        ((multKeysOf df cs).filter (fun k => k.all Option.isSome)).length = 0
    · rw [if_pos h0] at h
      simp only [Option.some.injEq, Prod.mk.injEq] at h
      rw [← h.2.2]
      exact ⟨by norm_num, by norm_num⟩
    · rw [if_neg h0] at h
      simp only [Option.some.injEq, Prod.mk.injEq] at h
      rw [← h.2.2]
      have hdup : (duplicatedFirstMask []
            ((multKeysOf df cs).filter (fun k => k.all Option.isSome))).count true ≤
          ((multKeysOf df cs).filter (fun k => k.all Option.isSome)).length := by
        calc (duplicatedFirstMask []
              ((multKeysOf df cs).filter (fun k => k.all Option.isSome))).count true
            ≤ (duplicatedFirstMask []
              ((multKeysOf df cs).filter (fun k => k.all Option.isSome))).length :=
              List.count_le_length _ _
          _ = _ := duplicatedFirstMask_length _ _
      refine pctH_bounds ?_ ?_ ?_
      · omega
      · omega
      · exact_mod_cast Nat.pos_of_ne_zero h0
  · exact absurd h (by simp)

theorem validityCols_inv (df : Dataset) (rt : String) :
    ∀ (l : List (String × Params)) (fl : FlagCols)
      (res : List (String × RuleEntry)) (sc : List Int) fl' res' sc',
      (∀ p ∈ res, hIn p.2.col_perc) → (∀ q ∈ sc, hIn q) →
      validityCols df rt l fl res sc = .ok (fl', res', sc') →
      (∀ p ∈ res', hIn p.2.col_perc) ∧ (∀ q ∈ sc', hIn q) := by
  intro l
  induction l with
  | nil =>
      intro fl res sc fl' res' sc' hres hsc h
      cases h
      exact ⟨hres, hsc⟩
  | cons cp rest ih =>
      obtain ⟨c, p⟩ := cp
      intro fl res sc fl' res' sc' hres hsc h
      rw [validityCols] at h
      split at h
      · cases h
      · exact ih _ _ _ _ _ _ hres hsc h
      next flags e heq =>
        refine ih _ _ _ _ _ _
          (mem_dictSet (P := fun u : RuleEntry => hIn u.col_perc) hres
            (evalValidityCol_perc heq)) ?_ h
        intro q hq
        rcases List.mem_append.mp hq with hq | hq
        · exact hsc q hq
        · rw [List.mem_singleton.mp hq]
          exact evalValidityCol_perc heq

theorem validityEntries_inv (df : Dataset) :
    ∀ (dm : DimMap) (fl : FlagCols) (res : List (String × RuleEntry))
      (sc : List Int) fl' res' sc',
      (∀ p ∈ res, hIn p.2.col_perc) → (∀ q ∈ sc, hIn q) →
      validityEntries df dm fl res sc = .ok (fl', res', sc') →
      (∀ p ∈ res', hIn p.2.col_perc) ∧ (∀ q ∈ sc', hIn q) := by
  intro dm
  induction dm with
  | nil =>
      intro fl res sc fl' res' sc' hres hsc h
      cases h
      exact ⟨hres, hsc⟩
  | cons e rest ih =>
      obtain ⟨rt, cfg⟩ := e
      intro fl res sc fl' res' sc' hres hsc h
      rw [validityEntries] at h
      split at h
      · split at h
        · cases h
        next fl2 res2 sc2 heq =>
          obtain ⟨hres2, hsc2⟩ := validityCols_inv df rt _ _ _ _ _ _ _ hres hsc heq
          exact ih _ _ _ _ _ _ hres2 hsc2 h
      · exact ih _ _ _ _ _ _ hres hsc h

theorem check_validity_inv {df : Dataset} {dm : DimMap} {fl fl2 : FlagCols}
    {rep : RuleDimReport} (h : check_validity df dm fl = .ok (fl2, rep)) :
    (∀ p ∈ rep.columns, hIn p.2.col_perc) ∧ hIn rep.dim_perc := by
  unfold check_validity at h
  split at h
  · cases h
  next fl3 res sc heq =>
    obtain ⟨hres, hsc⟩ := validityEntries_inv df dm fl [] [] fl3 res sc
      (by simp) (by simp) heq
    cases h
    exact ⟨hres, meanH_bounds hsc⟩

theorem consistencyCols_inv (env : Env) (df : Dataset) (rt : String) :
    ∀ (l : List (String × Params)) (fl : FlagCols)
      (res : List (String × RuleEntry)) (sc : List Int) fl' res' sc',
      (∀ p ∈ res, hIn p.2.col_perc) → (∀ q ∈ sc, hIn q) →
      consistencyCols env df rt l fl res sc = .ok (fl', res', sc') →
      (∀ p ∈ res', hIn p.2.col_perc) ∧ (∀ q ∈ sc', hIn q) := by
  intro l
  induction l with
  | nil =>
      intro fl res sc fl' res' sc' hres hsc h
      cases h
      exact ⟨hres, hsc⟩
  | cons cp rest ih =>
      obtain ⟨c, p⟩ := cp
      intro fl res sc fl' res' sc' hres hsc h
      rw [consistencyCols] at h
      split at h
      · cases h
      · exact ih _ _ _ _ _ _ hres hsc h
      next flags e heq =>
        refine ih _ _ _ _ _ _
          (mem_dictSet (P := fun u : RuleEntry => hIn u.col_perc) hres
            (evalConsistencyCol_perc heq)) ?_ h
        intro q hq
        rcases List.mem_append.mp hq with hq | hq
        · exact hsc q hq
        · rw [List.mem_singleton.mp hq]
          exact evalConsistencyCol_perc heq

theorem consistencyEntries_inv (env : Env) (df : Dataset) :
    ∀ (dm : DimMap) (fl : FlagCols) (res : List (String × RuleEntry))
      (sc : List Int) fl' res' sc',
      (∀ p ∈ res, hIn p.2.col_perc) → (∀ q ∈ sc, hIn q) →
      consistencyEntries env df dm fl res sc = .ok (fl', res', sc') →
      (∀ p ∈ res', hIn p.2.col_perc) ∧ (∀ q ∈ sc', hIn q) := by
  intro dm
  induction dm with
  | nil =>
      intro fl res sc fl' res' sc' hres hsc h
      cases h
      exact ⟨hres, hsc⟩
  | cons e rest ih =>
      obtain ⟨rt, cfg⟩ := e
      intro fl res sc fl' res' sc' hres hsc h
      rw [consistencyEntries] at h
      split at h
      · split at h
        · cases h
        · split at h
          · cases h
          next fl2 res2 sc2 heq =>
            obtain ⟨hres2, hsc2⟩ :=
              consistencyCols_inv env df rt _ _ _ _ _ _ _ hres hsc heq
            exact ih _ _ _ _ _ _ hres2 hsc2 h
      · exact ih _ _ _ _ _ _ hres hsc h

theorem check_consistency_inv {env : Env} {df : Dataset} {dm : DimMap}
    {fl fl2 : FlagCols} {rep : RuleDimReport}
    (h : check_consistency env df dm fl = .ok (fl2, rep)) :
    (∀ p ∈ rep.columns, hIn p.2.col_perc) ∧ hIn rep.dim_perc := by
  unfold check_consistency at h
  split at h
  · cases h
  next fl3 res sc heq =>
    obtain ⟨hres, hsc⟩ := consistencyEntries_inv env df dm fl [] [] fl3 res sc
      (by simp) (by simp) heq
    cases h
    exact ⟨hres, meanH_bounds hsc⟩

theorem uniqSingCols_inv (df : Dataset) :
    ∀ (l : List String) (fl : FlagCols) (res : List (String × UniqSingEntry))
      (sc : List Int),
      (∀ p ∈ res, hIn p.2.col_perc) → (∀ q ∈ sc, hIn q) →
      (∀ p ∈ (uniqSingCols df l fl res sc).2.1, hIn p.2.col_perc) ∧
      (∀ q ∈ (uniqSingCols df l fl res sc).2.2, hIn q) := by
  intro l
  induction l with
  | nil => intro fl res sc hres hsc; exact ⟨hres, hsc⟩
  | cons c rest ih =>
      intro fl res sc hres hsc
      rw [uniqSingCols]
      cases hu : uniqSingCol df c with
      | none => exact ih _ _ _ hres hsc
      | some fe =>
          obtain ⟨flags, e⟩ := fe
          refine ih _ _ _
            (mem_dictSet (P := fun u : UniqSingEntry => hIn u.col_perc) hres
              (uniqSingCol_perc hu)) ?_
          intro q hq
          rcases List.mem_append.mp hq with hq | hq
          · exact hsc q hq
          · rw [List.mem_singleton.mp hq]
            exact uniqSingCol_perc hu

theorem uniqMultKeys_inv (df : Dataset) :
    ∀ (l : List (List String)) (fl : FlagCols)
      (res : List (String × UniqMultEntry)) (sc : List Int),
      (∀ p ∈ res, hIn p.2.col_perc) → (∀ q ∈ sc, hIn q) →
      (∀ p ∈ (uniqMultKeys df l fl res sc).2.1, hIn p.2.col_perc) ∧
      (∀ q ∈ (uniqMultKeys df l fl res sc).2.2, hIn q) := by
  intro l
  induction l with
  | nil => intro fl res sc hres hsc; exact ⟨hres, hsc⟩
  | cons cs rest ih =>
      intro fl res sc hres hsc
      rw [uniqMultKeys]
      cases hu : uniqMultKey df cs with
      | none => exact ih _ _ _ hres hsc
      | some kfe =>
          obtain ⟨kn, flags, e⟩ := kfe
          refine ih _ _ _
            (mem_dictSet (P := fun u : UniqMultEntry => hIn u.col_perc) hres
              (uniqMultKey_perc hu)) ?_
          intro q hq
          rcases List.mem_append.mp hq with hq | hq
          · exact hsc q hq
          · rw [List.mem_singleton.mp hq]
            exact uniqMultKey_perc hu

theorem check_uniqueness_inv (df : Dataset) (dm : DimMap) (fl : FlagCols) :
    (∀ p ∈ (check_uniqueness df dm fl).2.uniq_sing, hIn p.2.col_perc) ∧
    (∀ p ∈ (check_uniqueness df dm fl).2.uniq_mult, hIn p.2.col_perc) ∧
    hIn (check_uniqueness df dm fl).2.dim_perc := by
  unfold check_uniqueness
  obtain ⟨hs1, hs2⟩ :=
    uniqSingCols_inv df (singColsOf (dictGet dm "uniq_sing")) fl [] []
      (by simp) (by simp)
  obtain ⟨hm1, hm2⟩ :=
    uniqMultKeys_inv df (multColsOf (dictGet dm "uniq_mult"))
      (uniqSingCols df (singColsOf (dictGet dm "uniq_sing")) fl [] []).1 []
      (uniqSingCols df (singColsOf (dictGet dm "uniq_sing")) fl [] []).2.2
      (by simp) hs2
  exact ⟨hs1, hm1, meanH_bounds hm2⟩

theorem completenessCols_inv {df : Dataset} (hwf : df.WF) :
    ∀ (l : List String) (fl : FlagCols)
      (res : List (String × CompletenessEntry)) (sc : List Int) fl' res' sc',
      (∀ p ∈ res, hIn p.2.col_perc) → (∀ q ∈ sc, hIn q) →
      completenessCols df l fl res sc = .ok (fl', res', sc') →
      (∀ p ∈ res', hIn p.2.col_perc) ∧ (∀ q ∈ sc', hIn q) ∧
        ∃ t, sc' = sc ++ t := by
  intro l
  induction l with
  | nil =>
      intro fl res sc fl' res' sc' hres hsc h
      cases h
      exact ⟨hres, hsc, [], by simp⟩
  | cons c rest ih =>
      intro fl res sc fl' res' sc' hres hsc h
      rw [completenessCols] at h
      cases hcol : df.getCol c with
      | none => rw [hcol] at h; cases h
      | some cells =>
          rw [hcol] at h
          simp only [] at h
          by_cases h0 : df.nrows = 0
          · rw [if_pos h0] at h; cases h
          · rw [if_neg h0] at h
            have hperc : hIn (pctH ((df.nrows : Int) -
                (cells.countP (fun x => x.isNone) : Int)) (df.nrows : Int)) := by
              have hle : cells.countP (fun x => x.isNone) ≤ df.nrows := by
                calc cells.countP (fun x => x.isNone) ≤ cells.length :=
                      List.countP_le_length _
                  _ = df.nrows := getCol_length hwf hcol
              refine pctH_bounds ?_ ?_ ?_
              · omega
              · omega
              · exact_mod_cast Nat.pos_of_ne_zero h0
            obtain ⟨hres2, hsc2, t, ht⟩ := ih _ _ _ _ _ _
              (mem_dictSet (P := fun u : CompletenessEntry => hIn u.col_perc)
                hres hperc)
              (by
                intro q hq
                rcases List.mem_append.mp hq with hq | hq
                · exact hsc q hq
                · rw [List.mem_singleton.mp hq]; exact hperc) h
            exact ⟨hres2, hsc2, _, by rw [ht, List.append_assoc]⟩

theorem check_completeness_inv {df : Dataset} (hwf : df.WF) {dm : DimMap}
    {fl fl2 : FlagCols} {rep : CompletenessReport}
    (h : check_completeness df dm fl = .ok (fl2, rep)) :
    (∀ p ∈ rep.columns, hIn p.2.col_perc) ∧ hIn rep.dim_perc := by
  unfold check_completeness at h
  split at h
  · cases h
    exact ⟨by simp, by norm_num [hIn]⟩
  next c rest heq2 =>
    rw [completenessCols] at h
    cases hcol : df.getCol c with
    | none => rw [hcol] at h; cases h
    | some cells =>
        rw [hcol] at h
        simp only [] at h
        by_cases h0 : df.nrows = 0
        · rw [if_pos h0] at h; cases h
        · rw [if_neg h0] at h
          have hperc : hIn (pctH ((df.nrows : Int) -
              (cells.countP (fun x => x.isNone) : Int)) (df.nrows : Int)) := by
            have hle : cells.countP (fun x => x.isNone) ≤ df.nrows := by
              calc cells.countP (fun x => x.isNone) ≤ cells.length :=
                    List.countP_le_length _
                _ = df.nrows := getCol_length hwf hcol
            refine pctH_bounds ?_ ?_ ?_
            · omega
            · omega
            · exact_mod_cast Nat.pos_of_ne_zero h0
          cases htail : completenessCols df rest
              (dictSet fl ("completeness." ++ c) (cells.map
                (fun x => if x.isSome then 1 else 0)))
              (dictSet [] c ⟨cells.countP (fun x => x.isNone), df.nrows,
                pctH ((df.nrows : Int) - (cells.countP (fun x => x.isNone) : Int))
                  (df.nrows : Int)⟩)
              ([] ++ [pctH ((df.nrows : Int) -
                (cells.countP (fun x => x.isNone) : Int)) (df.nrows : Int)]) with
          | error e => rw [htail] at h; cases h
          | ok out =>
              obtain ⟨fl3, res3, sc3⟩ := out
              rw [htail] at h
              obtain ⟨hres3, hsc3, t, ht⟩ := completenessCols_inv hwf rest _ _ _
                _ _ _
                (mem_dictSet (P := fun u : CompletenessEntry => hIn u.col_perc)
                  (by simp) hperc)
                (by
                  intro q hq
                  rcases List.mem_append.mp hq with hq | hq
                  · exact absurd hq (by simp)
                  · rw [List.mem_singleton.mp hq]; exact hperc) htail
              cases h
              refine ⟨hres3, roundMeanH_bounds ?_ hsc3⟩
              rw [ht]
              simp

theorem strStartsWith_ne {s t p : String} (hs : strStartsWith s p = true)
    (ht : strStartsWith t p = false) : s ≠ t := by
  intro e
  subst e
  rw [hs] at ht
  cases ht

theorem not_vali_of_cons {s : String} (h : strStartsWith s "cons_" = true) :
    strStartsWith s "vali_" = false := by
  unfold strStartsWith at h ⊢
  have hc : "cons_".toList = ['c', 'o', 'n', 's', '_'] := rfl
  have hv : "vali_".toList = ['v', 'a', 'l', 'i', '_'] := rfl
  rw [hc] at h
  rw [hv]
  cases hs : s.toList with
  | nil => rw [hs] at h; simp [List.isPrefixOf] at h
  | cons a as =>
      rw [hs] at h
      simp only [List.isPrefixOf, Bool.and_eq_true, beq_iff_eq] at h
      obtain ⟨ha, -⟩ := h
      subst ha
      simp [List.isPrefixOf]

theorem not_cons_of_vali {s : String} (h : strStartsWith s "vali_" = true) :
    strStartsWith s "cons_" = false := by
  unfold strStartsWith at h ⊢
  have hv : "vali_".toList = ['v', 'a', 'l', 'i', '_'] := rfl
  have hc : "cons_".toList = ['c', 'o', 'n', 's', '_'] := rfl
  rw [hv] at h
  rw [hc]
  cases hs : s.toList with
  | nil => rw [hs] at h; simp [List.isPrefixOf] at h
  | cons a as =>
      rw [hs] at h
      simp only [List.isPrefixOf, Bool.and_eq_true, beq_iff_eq] at h
      obtain ⟨ha, -⟩ := h
      subst ha
      simp [List.isPrefixOf]

theorem maskOfFrom_false_map (cells : List Cell) :
    ∀ i, (maskOfFrom (fun _ _ => false) i cells).map
        (fun b => if b then (1 : Nat) else 0) =
      cells.map (fun x => if x.isSome then 0 else 1) := by
  induction cells with
  | nil => intro i; rfl
  | cons x rest ih =>
      intro i
      cases x <;> simp [maskOfFrom, ih (i + 1)]

theorem validCountOf_maskOfFrom_false (cells : List Cell) :
    ∀ i, validCountOf cells (maskOfFrom (fun _ _ => false) i cells) = 0 := by
  induction cells with
  | nil => intro i; rfl
  | cons x rest ih =>
      intro i
      cases x with
      | none =>
          simpa [validCountOf, maskOfFrom, List.zip_cons_cons, List.filter_cons]
            using ih (i + 1)
      | some v =>
          simpa [validCountOf, maskOfFrom, List.zip_cons_cons, List.filter_cons,
                 List.countP_cons] using ih (i + 1)

theorem pctH_zero {den : Int} (hd : 0 < den) : pctH 0 den = 0 := by
  unfold pctH
  rw [zero_mul, zero_mul, zero_add]
  exact Int.ediv_eq_zero_of_lt (by omega) (by omega)

theorem meanH_single_zero : meanH [0] = 0 := by decide

theorem meanH_nil : meanH [] = 10000 := by decide

theorem dictSet_same {α : Type} (v1 v2 : α) (c : String) :
    dictSet (dictSet [] c v1) c v2 = [(c, v2)] := by
  simp [dictSet]

/-- C5: for every well-formed dataset and configuration on which `run`
completes, every column-level `col_perc` and every dimension `dim_perc` in
the produced report lies in the closed interval [0, 100]. -/
theorem all_report_percentages_in_range (env : Env) (df : Dataset) (dm : DimMap) (t : String)
    (r : RunResult) (hwf : df.WF) (h : run env df dm t = .ok r) :
    ReportInRange r.report := by
  unfold run at h
  cases hc : runCore env df dm with
  | error e => rw [hc] at h; exact absurd h (by simp [Except.map])
  | ok x =>
      rw [hc] at h
      simp only [Except.map] at h
      cases h
      unfold runCore at hc
      cases hcomp : check_completeness df dm [] with
      | error e => simp only [hcomp] at hc; cases hc
      | ok p1 =>
          obtain ⟨f1, comp⟩ := p1
          simp only [hcomp] at hc
          cases hvali : check_validity df dm (check_uniqueness df dm f1).1 with
          | error e => simp only [hvali] at hc; cases hc
          | ok p3 =>
              obtain ⟨f3, vali⟩ := p3
              simp only [hvali] at hc
              cases hcons : check_consistency env df dm f3 with
              | error e => simp only [hcons] at hc; cases hc
              | ok p4 =>
                  obtain ⟨f4, cons⟩ := p4
                  simp only [hcons, Except.ok.injEq] at hc
                  cases hc
                  obtain ⟨hc1, hc2⟩ := check_completeness_inv hwf hcomp
                  obtain ⟨hu1, hu2, hu3⟩ := check_uniqueness_inv df dm f1
                  obtain ⟨hv1, hv2⟩ := check_validity_inv hvali
                  obtain ⟨hx1, hx2⟩ := check_consistency_inv hcons
                  exact ⟨fun p hp => inPerc_percVal (hc1 p hp),
                         inPerc_percVal hc2,
                         fun p hp => inPerc_percVal (hu1 p hp),
                         fun p hp => inPerc_percVal (hu2 p hp),
                         inPerc_percVal hu3,
                         fun p hp => inPerc_percVal (hv1 p hp),
                         inPerc_percVal hv2,
                         fun p hp => inPerc_percVal (hx1 p hp),
                         inPerc_percVal hx2⟩

theorem all_report_percentages_in_range_witness : ReportInRange report5 := by
  have hok : (run env0 df5 dm5 "T").isOk = true := by decide
  unfold report5
  cases h : run env0 df5 dm5 "T" with
  | error e => rw [h] at hok; simp [Except.isOk, Except.toBool] at hok
  | ok r => exact all_report_percentages_in_range env0 df5 dm5 "T" r (by decide) h

/-- C2: for every validity rule, null rows get flag 1 (vacuous pass) and
are excluded from the denominator (rows_evaluated is the non-null count);
zero evaluated rows score 100.0; and the inclusive range rule [1,1000] on
values [0, 500, 1001, null] yields rows_evaluated = 3, invalid = 2 and
col_perc = 33.33. -/
theorem validity_vacuous_pass_and_inclusive_range :
    (∀ (df : Dataset) (rt c : String) (p : Params) (cells : List Cell)
       (flags : List Nat) (e : RuleEntry),
        df.getCol c = some cells →
        evalValidityCol df rt c p = .ok (some (flags, e)) →
        e.rows_evaluated = cells.countP (fun x => x.isSome) ∧
        (∀ j : Nat, cells[j]? = some none → flags[j]? = some 1) ∧
        (cells.countP (fun x => x.isSome) = 0 → e.col_perc = 10000)) ∧
    (run env0 df2 dm2 "T").map (fun r => r.report.validity) =
      .ok ⟨[("v", ⟨"vali_val_rang", 2, 3, 3333, .range 1 1000⟩)], 3333⟩ ∧
    percVal 3333 = 33.33 ∧ percVal 10000 = 100 := by
  refine ⟨?_, by decide, by norm_num [percVal], by norm_num [percVal]⟩
  intro df rt c p cells flags e hcol h
  unfold evalValidityCol at h
  rw [hcol] at h
  simp only [] at h
  by_cases h0 : cells.countP (fun x => x.isSome) = 0
  · rw [if_pos h0] at h
    simp only [Except.ok.injEq, Option.some.injEq, Prod.mk.injEq] at h
    obtain ⟨hfl, he⟩ := h
    refine ⟨by rw [← he]; exact h0.symm, ?_, fun _ => by rw [← he]⟩
    intro j hj
    rw [← hfl, List.getElem?_map, hj]
    rfl
  · rw [if_neg h0] at h
    cases happ : applyValidityRule df rt p cells with
    | error e2 => rw [happ] at h; exact absurd h (by simp)
    | ok mask =>
        rw [happ] at h
        simp only [Except.ok.injEq, Option.some.injEq, Prod.mk.injEq] at h
        obtain ⟨hfl, he⟩ := h
        obtain ⟨g, hg⟩ := applyValidityRule_shape happ
        refine ⟨by rw [← he], ?_, fun hyp => absurd hyp h0⟩
        intro j hj
        rw [← hfl, List.getElem?_map, hg, maskOf,
            maskOfFrom_getElem?_none g 0 j cells hj]
        rfl

theorem validity_vacuous_pass_and_inclusive_range_witness :
    ((⟨"vali_val_rang", 2, 3, 3333, Params.range 1 1000⟩ : RuleEntry).rows_evaluated =
      ([some (Val.vInt 0), some (Val.vInt 500), some (Val.vInt 1001), none] :
        List Cell).countP (fun x => x.isSome)) ∧
    (∀ j : Nat, ([some (Val.vInt 0), some (Val.vInt 500), some (Val.vInt 1001), none] :
        List Cell)[j]? = some none → ([0, 1, 0, 1] : List Nat)[j]? = some 1) ∧
    (([some (Val.vInt 0), some (Val.vInt 500), some (Val.vInt 1001), none] :
        List Cell).countP (fun x => x.isSome) = 0 →
      (⟨"vali_val_rang", 2, 3, 3333, Params.range 1 1000⟩ : RuleEntry).col_perc = 10000) :=
  validity_vacuous_pass_and_inclusive_range.1 df2 "vali_val_rang" "v" (.range 1 1000)
    [some (Val.vInt 0), some (Val.vInt 500), some (Val.vInt 1001), none]
    [0, 1, 0, 1] ⟨"vali_val_rang", 2, 3, 3333, Params.range 1 1000⟩
    (by decide) (by decide)

theorem run_unknown_vali_tag_keyerror (env : Env) (df : Dataset) (rt c : String) (p : Params)
    (cells : List Cell) (t : String)
    (hpre : strStartsWith rt "vali_" = true)
    (hmem : rt ∉ validityRuleTags)
    (hcol : df.getCol c = some cells)
    (hnn : cells.countP (fun x => x.isSome) ≠ 0) :
    run env df [(rt, .mapping [(c, p)])] t = .error (.keyError rt) := by
  have h1 : (rt == "completeness") = false :=
    beq_false_of_ne (strStartsWith_ne hpre (by decide))
  have h2 : (rt == "uniq_sing") = false :=
    beq_false_of_ne (strStartsWith_ne hpre (by decide))
  have h3 : (rt == "uniq_mult") = false :=
    beq_false_of_ne (strStartsWith_ne hpre (by decide))
  simp only [validityRuleTags, List.mem_cons, List.not_mem_nil, or_false,
             not_or] at hmem
  obtain ⟨n1, n2, n3, n4, n5, n6, n7, n8⟩ := hmem
  simp [run, runCore, check_completeness, completenessColsOf, dictGet,
        List.find?, h1, h2, h3, check_uniqueness, singColsOf, multColsOf,
        uniqSingCols, uniqMultKeys, check_validity, validityEntries,
        validityPairs, validityCols, evalValidityCol, hcol, hnn,
        applyValidityRule, hpre, beq_false_of_ne n1, beq_false_of_ne n2,
        beq_false_of_ne n3, beq_false_of_ne n4, beq_false_of_ne n5,
        beq_false_of_ne n6, beq_false_of_ne n7, beq_false_of_ne n8,
        Except.map]

theorem run_unknown_cons_tag_valueerror (env : Env) (df : Dataset) (rt c : String) (p : Params)
    (cells : List Cell) (t : String)
    (hpre : strStartsWith rt "cons_" = true)
    (hmem : rt ∉ consistencyRuleTags)
    (hcol : df.getCol c = some cells)
    (hnn : cells.countP (fun x => x.isSome) ≠ 0) :
    run env df [(rt, .mapping [(c, p)])] t = .error (.valueError rt) := by
  have h1 : (rt == "completeness") = false :=
    beq_false_of_ne (strStartsWith_ne hpre (by decide))
  have h2 : (rt == "uniq_sing") = false :=
    beq_false_of_ne (strStartsWith_ne hpre (by decide))
  have h3 : (rt == "uniq_mult") = false :=
    beq_false_of_ne (strStartsWith_ne hpre (by decide))
  have hv : strStartsWith rt "vali_" = false := not_vali_of_cons hpre
  simp only [consistencyRuleTags, List.mem_cons, List.not_mem_nil, or_false,
             not_or] at hmem
  obtain ⟨n1, n2, n3⟩ := hmem
  simp [run, runCore, check_completeness, completenessColsOf, dictGet,
        List.find?, h1, h2, h3, check_uniqueness, singColsOf, multColsOf,
        uniqSingCols, uniqMultKeys, check_validity, validityEntries, hv,
        check_consistency, consistencyEntries, consPairsOf, consistencyCols,
        evalConsistencyCol, hcol, hnn, resolve, hpre, beq_false_of_ne n1,
        beq_false_of_ne n2, beq_false_of_ne n3, Except.map]

theorem run_other_unknown_tag_ignored (env : Env) (df : Dataset) (rt : String)
    (cfg : EntryConfig) (t : String)
    (hv : strStartsWith rt "vali_" = false)
    (hc : strStartsWith rt "cons_" = false)
    (hmem : rt ∉ specialTags) :
    run env df [(rt, cfg)] t =
      .ok ⟨⟨df.nrows, df.cols⟩,
        ⟨t, df.nrows, ⟨[], 10000⟩, ⟨[], [], 10000⟩, ⟨[], 10000⟩,
         ⟨[], 10000⟩⟩⟩ := by
  simp only [specialTags, List.mem_cons, List.not_mem_nil, or_false,
             not_or] at hmem
  obtain ⟨n1, n2, n3⟩ := hmem
  simp [run, runCore, check_completeness, completenessColsOf, dictGet,
        List.find?, beq_false_of_ne n1, beq_false_of_ne n2,
        beq_false_of_ne n3, check_uniqueness, singColsOf, multColsOf,
        uniqSingCols, uniqMultKeys, check_validity, validityEntries, hv,
        check_consistency, consistencyEntries, hc, meanH, Except.map,
        flagColsToCells]


theorem run_unknown_vali_absent_ok (env : Env) (df : Dataset) (rt c : String)
    (p : Params) (t : String)
    (hpre : strStartsWith rt "vali_" = true)
    (hcol : df.getCol c = none) :
    (run env df [(rt, .mapping [(c, p)])] t).isOk = true := by
  have h1 : (rt == "completeness") = false :=
    beq_false_of_ne (strStartsWith_ne hpre (by decide))
  have h2 : (rt == "uniq_sing") = false :=
    beq_false_of_ne (strStartsWith_ne hpre (by decide))
  have h3 : (rt == "uniq_mult") = false :=
    beq_false_of_ne (strStartsWith_ne hpre (by decide))
  have hcp : strStartsWith rt "cons_" = false := not_cons_of_vali hpre
  simp [run, runCore, check_completeness, completenessColsOf, dictGet,
        List.find?, h1, h2, h3, check_uniqueness, singColsOf, multColsOf,
        uniqSingCols, uniqMultKeys, check_validity, validityEntries,
        validityPairs, validityCols, evalValidityCol, hcol, hpre,
        check_consistency, consistencyEntries, hcp, Except.map,
        Except.isOk, Except.toBool]

theorem run_unknown_vali_allnull_ok (env : Env) (df : Dataset)
    (rt c : String) (p : Params) (cells : List Cell) (t : String)
    (hpre : strStartsWith rt "vali_" = true)
    (hcol : df.getCol c = some cells)
    (hz : cells.countP (fun x => x.isSome) = 0) :
    (run env df [(rt, .mapping [(c, p)])] t).isOk = true := by
  have h1 : (rt == "completeness") = false :=
    beq_false_of_ne (strStartsWith_ne hpre (by decide))
  have h2 : (rt == "uniq_sing") = false :=
    beq_false_of_ne (strStartsWith_ne hpre (by decide))
  have h3 : (rt == "uniq_mult") = false :=
    beq_false_of_ne (strStartsWith_ne hpre (by decide))
  have hcp : strStartsWith rt "cons_" = false := not_cons_of_vali hpre
  simp [run, runCore, check_completeness, completenessColsOf, dictGet,
        List.find?, h1, h2, h3, check_uniqueness, singColsOf, multColsOf,
        uniqSingCols, uniqMultKeys, check_validity, validityEntries,
        validityPairs, validityCols, evalValidityCol, hcol, hz, hpre,
        check_consistency, consistencyEntries, hcp, Except.map,
        Except.isOk, Except.toBool]

theorem run_unknown_cons_absent_ok (env : Env) (df : Dataset) (rt c : String)
    (p : Params) (t : String)
    (hpre : strStartsWith rt "cons_" = true)
    (hcol : df.getCol c = none) :
    (run env df [(rt, .mapping [(c, p)])] t).isOk = true := by
  have h1 : (rt == "completeness") = false :=
    beq_false_of_ne (strStartsWith_ne hpre (by decide))
  have h2 : (rt == "uniq_sing") = false :=
    beq_false_of_ne (strStartsWith_ne hpre (by decide))
  have h3 : (rt == "uniq_mult") = false :=
    beq_false_of_ne (strStartsWith_ne hpre (by decide))
  have hv : strStartsWith rt "vali_" = false := not_vali_of_cons hpre
  simp [run, runCore, check_completeness, completenessColsOf, dictGet,
        List.find?, h1, h2, h3, check_uniqueness, singColsOf, multColsOf,
        uniqSingCols, uniqMultKeys, check_validity, validityEntries, hv,
        check_consistency, consistencyEntries, consPairsOf, consistencyCols,
        evalConsistencyCol, hcol, hpre, Except.map, Except.isOk,
        Except.toBool]

theorem run_unknown_cons_allnull_ok (env : Env) (df : Dataset)
    (rt c : String) (p : Params) (cells : List Cell) (t : String)
    (hpre : strStartsWith rt "cons_" = true)
    (hcol : df.getCol c = some cells)
    (hz : cells.countP (fun x => x.isSome) = 0) :
    (run env df [(rt, .mapping [(c, p)])] t).isOk = true := by
  have h1 : (rt == "completeness") = false :=
    beq_false_of_ne (strStartsWith_ne hpre (by decide))
  have h2 : (rt == "uniq_sing") = false :=
    beq_false_of_ne (strStartsWith_ne hpre (by decide))
  have h3 : (rt == "uniq_mult") = false :=
    beq_false_of_ne (strStartsWith_ne hpre (by decide))
  have hv : strStartsWith rt "vali_" = false := not_vali_of_cons hpre
  simp [run, runCore, check_completeness, completenessColsOf, dictGet,
        List.find?, h1, h2, h3, check_uniqueness, singColsOf, multColsOf,
        uniqSingCols, uniqMultKeys, check_validity, validityEntries, hv,
        check_consistency, consistencyEntries, consPairsOf, consistencyCols,
        evalConsistencyCol, hcol, hz, hpre, Except.map, Except.isOk,
        Except.toBool]

/-- C3 (amended): an unrecognized rule-kind aborts the run only when it
begins with `vali_` (registry lookup KeyError) or `cons_` (resolver
ValueError), and only when a configured column exists with at least one
non-null value: an unknown `vali_`/`cons_` tag whose column is absent
from the dataset, or holds only nulls, still lets the run complete, and a
tag with any other prefix is silently ignored with default dimension
reports. -/
theorem unknown_tag_fatal_only_for_vali_cons :
    (∀ (env : Env) (df : Dataset) (rt c : String) (p : Params)
       (cells : List Cell) (t : String),
        strStartsWith rt "vali_" = true → rt ∉ validityRuleTags →
        df.getCol c = some cells → cells.countP (fun x => x.isSome) ≠ 0 →
        run env df [(rt, .mapping [(c, p)])] t = .error (.keyError rt)) ∧
    (∀ (env : Env) (df : Dataset) (rt c : String) (p : Params)
       (cells : List Cell) (t : String),
        strStartsWith rt "cons_" = true → rt ∉ consistencyRuleTags →
        df.getCol c = some cells → cells.countP (fun x => x.isSome) ≠ 0 →
        run env df [(rt, .mapping [(c, p)])] t = .error (.valueError rt)) ∧
    (∀ (env : Env) (df : Dataset) (rt : String) (cfg : EntryConfig)
       (t : String),
        strStartsWith rt "vali_" = false → strStartsWith rt "cons_" = false →
        rt ∉ specialTags →
        run env df [(rt, cfg)] t =
          .ok ⟨⟨df.nrows, df.cols⟩,
            ⟨t, df.nrows, ⟨[], 10000⟩, ⟨[], [], 10000⟩, ⟨[], 10000⟩,
             ⟨[], 10000⟩⟩⟩) ∧
    (∀ (env : Env) (df : Dataset) (rt c : String) (p : Params) (t : String),
        strStartsWith rt "vali_" = true → rt ∉ validityRuleTags →
        df.getCol c = none →
        (run env df [(rt, .mapping [(c, p)])] t).isOk = true) ∧
    (∀ (env : Env) (df : Dataset) (rt c : String) (p : Params)
       (cells : List Cell) (t : String),
        strStartsWith rt "vali_" = true → rt ∉ validityRuleTags →
        df.getCol c = some cells → cells.countP (fun x => x.isSome) = 0 →
        (run env df [(rt, .mapping [(c, p)])] t).isOk = true) ∧
    (∀ (env : Env) (df : Dataset) (rt c : String) (p : Params) (t : String),
        strStartsWith rt "cons_" = true → rt ∉ consistencyRuleTags →
        df.getCol c = none →
        (run env df [(rt, .mapping [(c, p)])] t).isOk = true) ∧
    (∀ (env : Env) (df : Dataset) (rt c : String) (p : Params)
       (cells : List Cell) (t : String),
        strStartsWith rt "cons_" = true → rt ∉ consistencyRuleTags →
        df.getCol c = some cells → cells.countP (fun x => x.isSome) = 0 →
        (run env df [(rt, .mapping [(c, p)])] t).isOk = true) :=
  ⟨fun env df rt c p cells t => run_unknown_vali_tag_keyerror env df rt c p cells t,
   fun env df rt c p cells t => run_unknown_cons_tag_valueerror env df rt c p cells t,
   fun env df rt cfg t => run_other_unknown_tag_ignored env df rt cfg t,
   fun env df rt c p t hpre _ hcol => run_unknown_vali_absent_ok env df rt c p t hpre hcol,
   fun env df rt c p cells t hpre _ hcol hz =>
     run_unknown_vali_allnull_ok env df rt c p cells t hpre hcol hz,
   fun env df rt c p t hpre _ hcol => run_unknown_cons_absent_ok env df rt c p t hpre hcol,
   fun env df rt c p cells t hpre _ hcol hz =>
     run_unknown_cons_allnull_ok env df rt c p cells t hpre hcol hz⟩

theorem unknown_tag_fatal_only_for_vali_cons_witness :
    run env0 df3 dm3v "T" = .error (.keyError "vali_bogus") ∧
    run env0 df3 dm3c "T" = .error (.valueError "cons_bogus") ∧
    run env0 df3 [("frobnicate", .names ["a"])] "T" =
      .ok ⟨⟨1, [("a", [some (.vInt 5)])]⟩,
        ⟨"T", 1, ⟨[], 10000⟩, ⟨[], [], 10000⟩, ⟨[], 10000⟩, ⟨[], 10000⟩⟩⟩ ∧
    (run env0 df3 [("vali_bogus", .mapping [("zzz", .empty)])] "T").isOk = true ∧
    (run env0 dfN dm3v "T").isOk = true ∧
    (run env0 df3 [("cons_bogus", .mapping [("zzz", .empty)])] "T").isOk = true ∧
    (run env0 dfN dm3c "T").isOk = true :=
  ⟨unknown_tag_fatal_only_for_vali_cons.1 env0 df3 "vali_bogus" "a" .empty [some (.vInt 5)] "T"
     (by decide) (by decide) rfl (by decide),
   unknown_tag_fatal_only_for_vali_cons.2.1 env0 df3 "cons_bogus" "a" .empty [some (.vInt 5)] "T"
     (by decide) (by decide) rfl (by decide),
   unknown_tag_fatal_only_for_vali_cons.2.2.1 env0 df3 "frobnicate" (.names ["a"]) "T"
     (by decide) (by decide) (by decide),
   unknown_tag_fatal_only_for_vali_cons.2.2.2.1 env0 df3 "vali_bogus" "zzz" .empty "T"
     (by decide) (by decide) rfl,
   unknown_tag_fatal_only_for_vali_cons.2.2.2.2.1 env0 dfN "vali_bogus" "a" .empty [none] "T"
     (by decide) (by decide) rfl rfl,
   unknown_tag_fatal_only_for_vali_cons.2.2.2.2.2.1 env0 df3 "cons_bogus" "zzz" .empty "T"
     (by decide) (by decide) rfl,
   unknown_tag_fatal_only_for_vali_cons.2.2.2.2.2.2 env0 dfN "cons_bogus" "a" .empty [none] "T"
     (by decide) (by decide) rfl rfl⟩

/-- C4 (amended): the fail-open-resolution / fail-closed-evaluation policy
holds for `cons_conn_sql`: without a query provider the reference set
resolves empty, the rule's column scores 0.0 with every evaluated row
flagged invalid, and the run completes; for `cons_uplo_csv` a missing file
instead propagates an error (see the counterexample). -/
theorem missing_sql_provider_fail_closed (env : Env) (df : Dataset) (c tb rc : String)
    (cells : List Cell) (t : String)
    (hdb : env.dbProvider = none)
    (hcol : df.getCol c = some cells)
    (hnn : cells.countP (fun x => x.isSome) ≠ 0) :
    run env df [("cons_conn_sql", .mapping [(c, .sqlRef tb rc)])] t =
      .ok ⟨⟨df.nrows, df.cols ++ flagColsToCells
            [("cons_conn_sql." ++ c,
              cells.map (fun x => if x.isSome then 0 else 1))]⟩,
        ⟨t, df.nrows, ⟨[], 10000⟩, ⟨[], [], 10000⟩, ⟨[], 10000⟩,
         ⟨[(c, ⟨"cons_conn_sql", (cells.countP (fun x => x.isSome) : Int),
               cells.countP (fun x => x.isSome), 0, .sqlRef tb rc⟩)],
          0⟩⟩⟩ := by
  have hpos : (0 : Int) < (cells.countP (fun x => x.isSome) : Int) := by
    exact_mod_cast Nat.pos_of_ne_zero hnn
  have hv : strStartsWith "cons_conn_sql" "vali_" = false := by decide
  have hcp : strStartsWith "cons_conn_sql" "cons_" = true := by decide
  simp [run, runCore, check_completeness, completenessColsOf, dictGet,
        List.find?, check_uniqueness, singColsOf, multColsOf, uniqSingCols,
        uniqMultKeys, check_validity, validityEntries, check_consistency,
        consistencyEntries, consPairsOf, consistencyCols, evalConsistencyCol,
        hcol, hnn, resolve, hdb, maskOf, maskOfFrom_false_map,
        validCountOf_maskOfFrom_false, pctH_zero hpos, meanH_single_zero,
        meanH_nil, hv, hcp, dictSet, Except.map, flagColsToCells]

theorem missing_sql_provider_fail_closed_witness :
    run env0 df3 dm4b "T" =
      .ok ⟨⟨1, [("a", [some (.vInt 5)]),
                ("cons_conn_sql.a", [some (.vInt 0)])]⟩,
        ⟨"T", 1, ⟨[], 10000⟩, ⟨[], [], 10000⟩, ⟨[], 10000⟩,
         ⟨[("a", ⟨"cons_conn_sql", 1, 1, 0, .sqlRef "t" "r"⟩)], 0⟩⟩⟩ :=
  missing_sql_provider_fail_closed env0 df3 "a" "t" "r" [some (.vInt 5)] "T" rfl rfl (by decide)

theorem keysFold_mem (ks : List (List String)) :
    ∀ (acc : Finset String) (x : String),
      (x ∈ ks.foldl (fun a cols => a ∪ cols.toFinset) acc) ↔
        x ∈ acc ∨ ∃ k ∈ ks, x ∈ k := by
  induction ks with
  | nil => intro acc x; simp
  | cons k rest ih =>
      intro acc x
      rw [List.foldl_cons, ih]
      simp [Finset.mem_union, or_assoc]

theorem reqCol_aux (dm : DimMap) :
    ∀ (acc : Finset String) (x : String),
      (x ∈ dm.foldl reqColStep acc) ↔ x ∈ acc ∨ ∃ e ∈ dm, SpecMentions e.2 x := by
  induction dm with
  | nil => intro acc x; simp
  | cons e rest ih =>
      obtain ⟨rt, cfg⟩ := e
      intro acc x
      rw [List.foldl_cons, ih]
      cases cfg with
      | names cs =>
          simp [reqColStep, SpecMentions, Finset.mem_union, or_assoc]
      | keys ks =>
          simp [reqColStep, SpecMentions, Finset.mem_union, keysFold_mem,
                or_assoc]
      | mapping m =>
          simp [reqColStep, SpecMentions, Finset.mem_union, List.mem_map,
                List.mem_filterMap, or_assoc]

/-- C6: `get_req_col` returns exactly the set of columns mentioned by the
configuration — the names of list-valued entries (flattening composite-key
lists one level), the keys of mapping-valued entries and every
`compare_to` value — and, as a pure function into sets, it is
order-independent (permuting the entries leaves the result unchanged). -/
theorem get_req_col_exact_set_order_independent :
    (∀ (dm : DimMap) (x : String),
        x ∈ get_req_col dm ↔ ∃ e ∈ dm, SpecMentions e.2 x) ∧
    (∀ dm dm' : DimMap, dm.Perm dm' → get_req_col dm = get_req_col dm') := by
  have h1 : ∀ (dm : DimMap) (x : String),
      x ∈ get_req_col dm ↔ ∃ e ∈ dm, SpecMentions e.2 x := by
    intro dm x
    rw [get_req_col, reqCol_aux]
    simp
  refine ⟨h1, ?_⟩
  intro dm dm' hp
  ext x
  rw [h1, h1]
  constructor
  · rintro ⟨e, he, hm⟩; exact ⟨e, hp.mem_iff.mp he, hm⟩
  · rintro ⟨e, he, hm⟩; exact ⟨e, hp.mem_iff.mpr he, hm⟩

theorem get_req_col_exact_set_order_independent_witness :
    dmW.Perm dmW' ∧ get_req_col dmW = get_req_col dmW' ∧
    "z" ∈ get_req_col dmW :=
  ⟨List.Perm.swap _ _ _,
   get_req_col_exact_set_order_independent.2 dmW dmW' (List.Perm.swap _ _ _),
   (get_req_col_exact_set_order_independent.1 dmW "z").mpr
     ⟨("vali_high_col", .mapping [("b", .compareTo "z")]), by decide,
      Or.inr ⟨("b", .compareTo "z"), by decide, rfl⟩⟩⟩

/-- C10: when two distinct validity (or consistency) rules target the
same column, the dimension's columns mapping — keyed by column name only —
retains only the entry of the rule processed last, while the dimension
aggregate still averages the col_perc of both rules. -/
theorem same_column_rules_last_entry_wins_mean_of_both :
    (∀ (df : Dataset) (r1 r2 c : String) (p1 p2 : Params)
       (fl1 fl2 : List Nat) (e1 e2 : RuleEntry),
        strStartsWith r1 "vali_" = true → strStartsWith r2 "vali_" = true →
        r1 ≠ r2 →
        evalValidityCol df r1 c p1 = .ok (some (fl1, e1)) →
        evalValidityCol df r2 c p2 = .ok (some (fl2, e2)) →
        ∃ flOut,
          check_validity df
            [(r1, .mapping [(c, p1)]), (r2, .mapping [(c, p2)])] [] =
          .ok (flOut, ⟨[(c, e2)], roundMeanH [e1.col_perc, e2.col_perc]⟩)) ∧
    (∀ (env : Env) (df : Dataset) (r1 r2 c : String) (p1 p2 : Params)
       (fl1 fl2 : List Nat) (e1 e2 : RuleEntry),
        strStartsWith r1 "cons_" = true → strStartsWith r2 "cons_" = true →
        r1 ≠ r2 →
        evalConsistencyCol env df r1 c p1 = .ok (some (fl1, e1)) →
        evalConsistencyCol env df r2 c p2 = .ok (some (fl2, e2)) →
        ∃ flOut,
          check_consistency env df
            [(r1, .mapping [(c, p1)]), (r2, .mapping [(c, p2)])] [] =
          .ok (flOut, ⟨[(c, e2)], roundMeanH [e1.col_perc, e2.col_perc]⟩)) := by
  constructor
  · intro df r1 r2 c p1 p2 fl1 fl2 e1 e2 hs1 hs2 hne h1 h2
    refine ⟨dictSet (dictSet [] (r1 ++ "." ++ c) fl1) (r2 ++ "." ++ c) fl2, ?_⟩
    simp [check_validity, validityEntries, validityPairs, validityCols,
          hs1, hs2, h1, h2, dictSet_same, meanH]
  · intro env df r1 r2 c p1 p2 fl1 fl2 e1 e2 hs1 hs2 hne h1 h2
    refine ⟨dictSet (dictSet [] (r1 ++ "." ++ c) fl1) (r2 ++ "." ++ c) fl2, ?_⟩
    simp [check_consistency, consistencyEntries, consPairsOf, consistencyCols,
          hs1, hs2, h1, h2, dictSet_same, meanH]

theorem same_column_rules_last_entry_wins_mean_of_both_witness :
    (check_validity df10 dm10 []).map (fun x => x.2) =
      .ok ⟨[("x", ⟨"vali_val_neg", 1, 2, 5000, .empty⟩)], 5000⟩ := by
  obtain ⟨flOut, hout⟩ := same_column_rules_last_entry_wins_mean_of_both.1 df10 "vali_val_pos" "vali_val_neg" "x"
    .empty .empty [1, 0] [0, 1]
    ⟨"vali_val_pos", 1, 2, 5000, .empty⟩ ⟨"vali_val_neg", 1, 2, 5000, .empty⟩
    (by decide) (by decide) (by decide) (by decide) (by decide)
  rw [show dm10 = [("vali_val_pos", EntryConfig.mapping [("x", Params.empty)]),
      ("vali_val_neg", EntryConfig.mapping [("x", Params.empty)])] from rfl,
    hout]
  rfl

/-- C1: on the single-key uniqueness check over values [1,1,2,3] (4 rows)
the report entry has rows_evaluated = 4, duplicate_count = 1 and
col_perc = 75.0 (7500 hundredths; scoring excludes the first occurrence of
a duplicated value), while the flag column `uniq_sing.c` assigns 0 to both
rows holding value 1 and 1 to the rows holding 2 and 3 (flagging marks
every occurrence). -/
theorem uniq_sing_scoring_excludes_first_flagging_marks_all :
    (run env0 df1 dm1 "T").map (fun r => r.report.uniqueness) =
      .ok ⟨[("c", ⟨1, 4, 7500⟩)], [], 7500⟩ ∧
    (run env0 df1 dm1 "T").map
        (fun r => dictGet r.enriched.cols "uniq_sing.c") =
      .ok (some [some (.vInt 0), some (.vInt 0), some (.vInt 1),
                 some (.vInt 1)]) ∧
    percVal 7500 = 75 :=
  ⟨by decide, by decide, by norm_num [percVal]⟩

/-- C7: running the engine twice on the same dataset and configuration
produces identical enriched datasets and identical reports in every field
except the generation timestamp. -/
theorem run_deterministic_up_to_timestamp (env : Env) (df : Dataset) (dm : DimMap) (t1 t2 : String) :
    (run env df dm t1).map stripTime = (run env df dm t2).map stripTime := by
  unfold run
  cases runCore env df dm <;> rfl

/-- C8: a completed run returns an enriched table that is the caller's
original columns, unchanged and in order, followed by the flag columns —
a new table rather than a mutation of the input. -/
theorem run_enriched_appends_flags_to_unchanged_columns (env : Env) (df : Dataset) (dm : DimMap) (t : String)
    (r : RunResult) (h : run env df dm t = .ok r) :
    ∃ flagCols, r.enriched.nrows = df.nrows ∧
      r.enriched.cols = df.cols ++ flagColsToCells flagCols := by
  unfold run at h
  cases hc : runCore env df dm with
  | error e => rw [hc] at h; exact absurd h (by simp [Except.map])
  | ok x =>
      rw [hc] at h
      simp only [Except.map] at h
      cases h
      exact ⟨x.1, rfl, rfl⟩

theorem run_enriched_appends_flags_to_unchanged_columns_witness :
    enriched1.nrows = df1.nrows ∧
    enriched1.cols.take df1.cols.length = df1.cols := by
  have hok : (run env0 df1 dm1 "T").isOk = true := by decide
  unfold enriched1
  cases h : run env0 df1 dm1 "T" with
  | error e => rw [h] at hok; simp [Except.isOk, Except.toBool] at hok
  | ok r =>
      obtain ⟨fl, h1, h2⟩ := run_enriched_appends_flags_to_unchanged_columns env0 df1 dm1 "T" r h
      exact ⟨h1, by rw [h2, List.take_left]⟩

/-- C3 counterexample: the tag "frobnicate" is not in the recognized set,
yet `run` completes and returns a report, so an unrecognized rule-kind is
not always a fatal configuration error. -/
theorem unknown_tag_run_completes_counterexample :
    recognizedTags.contains "frobnicate" = false ∧
    (run env0 df3 [("frobnicate", .names ["a"])] "T").isOk = true :=
  ⟨by decide, by decide⟩

/-- C4 counterexample: with no readable reference file, a `cons_uplo_csv`
rule makes `resolve` raise `FileNotFoundError`, aborting the whole run —
it does not return an empty set with a warning. -/
theorem missing_reference_file_aborts_run_counterexample :
    run env0 df3 dm4 "T" = .error (.fileNotFound "ref.csv") := by decide

/-- C9 counterexample: on a zero-row dataset whose schema lacks the
configured completeness column, `run` raises the column-lookup KeyError,
not a division-by-zero error. -/
theorem empty_dataset_absent_column_keyerror_counterexample :
    run env0 ⟨0, []⟩ [("completeness", .names ["a"])] "T" =
      .error (.keyError "a") := by decide

/-- C9 (amended): on a zero-row dataset whose schema does contain the
first configured completeness column, `run` raises ZeroDivisionError in
the completeness phase (`non_nulls / total_rows` with `total_rows = 0`),
so a non-empty dataset is an unstated precondition. -/
theorem empty_dataset_completeness_divides_by_zero (env : Env) (df : Dataset) (dm : DimMap) (c : String)
    (cs : List String) (cells : List Cell) (t : String)
    (h0 : df.nrows = 0)
    (hdm : dictGet dm "completeness" = some (.names (c :: cs)))
    (hcol : df.getCol c = some cells) :
    run env df dm t = .error .zeroDivision := by
  simp [run, runCore, check_completeness, completenessColsOf,
        completenessCols, hdm, hcol, h0, Except.map]

theorem empty_dataset_completeness_divides_by_zero_witness :
    run env0 ⟨0, [("a", [])]⟩ [("completeness", .names ["a"])] "T" =
      .error .zeroDivision :=
  empty_dataset_completeness_divides_by_zero env0 ⟨0, [("a", [])]⟩ [("completeness", .names ["a"])] "a" [] [] "T"
    rfl (by decide) (by decide)
